import Mathlib

/-!
Verification of the resht HTTP client and shell (src/resht) against its
natural-language specification. Python strings are modelled either as Lean
strings or, where percent-encoding matters, as lists of Unicode code points
(`PyStr`). Python dicts are modelled as association lists in insertion order.
-/

namespace Resht

/-- Python strings as lists of Unicode code points (used where byte-level
percent encoding matters). -/
abbrev PyStr := List Nat

/-- Code-point list of a Lean string literal. -/
def pyStr (s : String) : PyStr := s.data.map Char.toNat

/-- Back to a Lean string (only applied to valid scalar values). -/
def strOfPy (s : PyStr) : String := ⟨s.map Char.ofNat⟩

/-- Python dict lookup (`d[k]` / `k in d`) on an insertion-ordered assoc list. -/
def dictGet {α β : Type} [DecidableEq α] : List (α × β) → α → Option β
  | [], _ => none
  | (k, v) :: rest, key => if k = key then some v else dictGet rest key

/-- Python dict assignment `d[key] = val`: replaces the value in place if the
key exists, appends otherwise. -/
def dictSet {α β : Type} [DecidableEq α] : List (α × β) → α → β → List (α × β)
  | [], key, val => [(key, val)]
  | (k, v) :: rest, key, val =>
    if k = key then (k, val) :: rest else (k, v) :: dictSet rest key val

/-- Python `d.update(other)`: assigns every pair of `other` into `d`, so
values from `other` win on key collisions. -/
def dictUpdate {α β : Type} [DecidableEq α] (d other : List (α × β)) : List (α × β) :=
  other.foldl (fun acc kv => dictSet acc kv.1 kv.2) d

/-- Split a list at the first occurrence of `c` (Python `s.split(c, 1)` when
`c` is present; `none` when absent). -/
def splitFirstL {α : Type} [DecidableEq α] : List α → α → Option (List α × List α)
  | [], _ => none
  | x :: xs, c =>
    if x = c then some ([], xs)
    else match splitFirstL xs c with
      | some (a, b) => some (x :: a, b)
      | none => none

/-- Python str.upper (ASCII range, which is all the sources use it on). -/
def pyUpper (s : String) : String := ⟨s.data.map Char.toUpper⟩

/-- Python str.lower (ASCII range, which is all the sources use it on). -/
def pyLower (s : String) : String := ⟨s.data.map Char.toLower⟩

def natDigitsAux : Nat → List Char → Option Nat
  | acc, [] => some acc
  | acc, c :: rest =>
    if c.isDigit then natDigitsAux (acc * 10 + (c.toNat - 48)) rest else none

/-- Python `int(str)` on the plain decimal strings the sources feed it. -/
def pyInt? (s : String) : Option Int :=
  match s.data with
  | [] => none
  | '-' :: ds =>
    if ds = [] then none else (natDigitsAux 0 ds).map fun n => -(n : Int)
  | ds => (natDigitsAux 0 ds).map fun n => (n : Int)

/-! ## C1: verb dispatch (client.py verb wrappers and request method handling) -/
inductive Verb where
  | head | get | post | put | patch | delete | options
deriving DecidableEq

/-- The literal method string each RestClient verb wrapper passes to
`request()`. Note client.py line 194: `head` passes the string GET even
though its docstring says it performs a HEAD request. -/
def verbRequestArg : Verb → String
  | .head => "GET"
  | .get => "GET"
  | .post => "POST"
  | .put => "PUT"
  | .patch => "PATCH"
  | .delete => "DELETE"
  | .options => "OPTIONS"

/-- client.py lines 263-265: a missing or empty method defaults to get, then
the method is upper-cased. -/
def normalizeMethod (method : Option String) : String :=
  pyUpper (match method with
   | none => "get"
   | some m => if m = "" then "get" else m)

/-- The HTTP method string handed to the transport when a verb wrapper runs. -/
def transportMethod (v : Verb) : String :=
  normalizeMethod (some (verbRequestArg v))

/-- The canonical (spec-side) name of each verb method. -/
def verbName : Verb → String
  | .head => "head"
  | .get => "get"
  | .post => "post"
  | .put => "put"
  | .patch => "patch"
  | .delete => "delete"
  | .options => "options"

/-! ## C2: status classification (client.py lines 381-396) -/
inductive HttpErrCls where
  | base | user | server
deriving DecidableEq

/-- The Response namedtuple fields relevant to classification; the decoded
payload type is abstract. -/
structure Resp (α : Type) where
  status : Nat
  decoded : α
  data : List Nat
deriving DecidableEq

/-- client.py lines 381-396: the Response is constructed, then an error class
is selected and raised when `status < 200 or status >= 400` (ServerHttpError
at 500+, UserHttpError at 400-499, the base HttpError otherwise, i.e. below
200); the raised error carries the full Response. -/
def finishRequest {α : Type} (status : Nat) (decoded : α) (data : List Nat) :
    Except (HttpErrCls × Resp α) (Resp α) :=
  let response : Resp α := ⟨status, decoded, data⟩
  if status < 200 ∨ 400 ≤ status then
    let cls :=
      if 500 ≤ status then HttpErrCls.server
      else if 400 ≤ status then HttpErrCls.user
      else HttpErrCls.base
    .error (cls, response)
  else .ok response

/-- Result of the hand-rolled host part of client.py parse_url (lines
115-150); the remainder is handed to urllib.parse.urlparse for
path/params/query/fragment and is not modelled further here. -/
structure ParsedBase where
  scheme : String
  hostname : String
  portStr : Option String
  rest : String
deriving DecidableEq

def isWordChar (c : Char) : Bool := c.isAlphanum || c = '_'

/-- Model of `re.match(r"^\w+://", url)` followed by `url.split("://", 1)`:
the scheme is the maximal leading run of word characters when it is nonempty
and immediately followed by the separator. -/
def splitScheme (url : String) : Option (String × String) :=
  let w := url.data.takeWhile isWordChar
  if w ≠ [] ∧ (url.data.drop w.length).take 3 = [':', '/', '/'] then
    some (⟨w⟩, ⟨url.data.drop (w.length + 3)⟩)
  else none

/-- Split a Lean string at the first occurrence of a character. -/
def splitFirstStr (s : String) (c : Char) : Option (String × String) :=
  (splitFirstL s.data c).map fun p => (⟨p.1⟩, ⟨p.2⟩)

/-- client.py parse_url, host portion (lines 132-150): optional scheme
(default http, lower-cased), host up to the first slash, optional port after
a colon, empty host defaulting to localhost (lower-cased). -/
def parse_url_host (url : String) : ParsedBase :=
  let sp := splitScheme url
  let scheme := match sp with | some p => pyLower p.1 | none => "http"
  let url := match sp with | some p => p.2 | none => url
  let hp : String × String :=
    match splitFirstStr url '/' with
    | some p => p
    | none => (url, "")
  let hostname := hp.1
  let rest := hp.2
  let hpp : String × Option String :=
    match splitFirstStr hostname ':' with
    | some p => (p.1, some p.2)
    | none => (hostname, none)
  let hostname := if hpp.1 = "" then "localhost" else hpp.1
  ⟨scheme, pyLower hostname, hpp.2, rest⟩

/-- client.py set_port (lines 180-188): accepts any port with
`port >= 0 and port <= 65535` and rejects the rest. Note the lower bound is
0, not 1. -/
def set_port (port : Int) : Except String Int :=
  if 0 ≤ port ∧ port ≤ 65535 then .ok port
  else .error "Invalid API service port"

/-- client.py set_base_url (lines 159-175): rejects an empty URL, requires an
http or https scheme, then either applies `set_port` to the parsed port or
defaults the port by scheme (443 for https, else 80). Returns the stored
(scheme, hostname, port). -/
def set_base_url (base_url : String) : Except String (String × String × Int) :=
  if base_url = "" then .error "Invalid API URL"
  else
    let u := parse_url_host base_url
    if ¬ (u.scheme = "http" ∨ u.scheme = "https") then
      .error "Only HTTP and HTTPS are supported protocols."
    else
      match u.portStr with
      | some p =>
        if p = "" then
          .ok (u.scheme, u.hostname, if u.scheme = "https" then 443 else 80)
        else
          match pyInt? p with
          | some n => (set_port n).map fun port => (u.scheme, u.hostname, port)
          | none => .error "invalid literal for int"
      | none =>
        .ok (u.scheme, u.hostname, if u.scheme = "https" then 443 else 80)

/-! ## C10 (and C3): the Url value type of types.py -/
structure Url where
  scheme : String
  hostname : String
  port : Int
  path : String
  query : String
  params : String
  fragment : String
deriving DecidableEq

/-- types.py lines 49-63, the Url serializer. Note line 62 of the source
appends the QUERY field after the `#` marker when a fragment is present. -/
def Url.render (u : Url) : String :=
  let url := u.scheme ++ "://" ++ u.hostname
  let url :=
    if (u.scheme = "https" ∧ u.port ≠ 443) ∨ (u.scheme = "http" ∧ u.port ≠ 80) then
      url ++ ":" ++ toString u.port
    else url
  let url := url ++ u.path
  let url := if u.params ≠ "" then url ++ ";" ++ u.params else url
  let url := if u.query ≠ "" then url ++ "?" ++ u.query else url
  if u.fragment ≠ "" then url ++ "#" ++ u.query else url

/-- types.py Url.validate (lines 65-69): scheme must be http or https and the
port must lie in [1, 65535]. (In the source the port failure path itself
crashes with a NameError while building the message; it is a failure either
way and is modelled as an error.) -/
def Url.validate (u : Url) : Except String Unit :=
  if ¬ (pyLower u.scheme = "http" ∨ pyLower u.scheme = "https") then
    .error "Only HTTP and HTTPS are supported protocols."
  else if u.port < 1 ∨ u.port > 65535 then
    .error "Invalid API service port"
  else .ok ()

/-- Python single-character `str.split(sep)` on a symbol list (splits on every
occurrence, keeping empty chunks, `[[]]` on empty input). -/
def splitOnL {α : Type} [DecidableEq α] (sep : α) : List α → List (List α)
  | [] => [[]]
  | c :: rest =>
    let r := splitOnL sep rest
    if c = sep then [] :: r
    else match r with
      | h :: t => (c :: h) :: t
      | [] => [[c]]

def strSplit (s : String) (sep : Char) : List String :=
  (splitOnL sep s.data).map fun l => (⟨l⟩ : String)

/-- Python `sep.join(xs)` for a one-character separator. -/
def pyJoin (sep : Char) (xs : List String) : String :=
  ⟨List.intercalate [sep] (xs.map String.data)⟩

/-- Collapse runs of `sep` down to a single occurrence. -/
def collapseRuns {α : Type} [DecidableEq α] (sep : α) : List α → List α
  | [] => []
  | [x] => [x]
  | x :: y :: rest =>
    if x = sep ∧ y = sep then collapseRuns sep (y :: rest)
    else x :: collapseRuns sep (y :: rest)

/-- Modelled from the spec: the helper `util.pretty_path` / `utils.pretty_path`
is referenced by client.py build_url and shell.py parse_path but its module is
not under src/. Per the spec (section 4.3 path hygiene and the glossary),
repeated slashes collapse to one and two independent flags force the presence
of a leading / trailing slash. -/
def prettyPathCore {α : Type} [DecidableEq α] (sep : α) (l : List α)
    (forceLeading forceTrailing : Bool) : List α :=
  let l := collapseRuns sep l
  let l := if forceLeading ∧ ¬ l.head? = some sep then sep :: l else l
  if forceTrailing ∧ ¬ l.getLast? = some sep then l ++ [sep] else l

/-- Modelled from the spec: `pretty_path` on Lean strings (see
`prettyPathCore`). -/
def pretty_path (s : String) (forceLeading forceTrailing : Bool) : String :=
  ⟨prettyPathCore '/' s.data forceLeading forceTrailing⟩

/-- shell.py lines 667-677: the segment loop of parse_path. Blank and `.`
segments are skipped, `..` pops the last collected segment and fails when the
list is already empty, anything else is appended. -/
def walkDirs : List String → List String → Except String (List String)
  | [], cur => .ok cur
  | name :: rest, cur =>
    if name = "" ∨ name = "." then walkDirs rest cur
    else if name = ".." then
      if cur = [] then .error "URI is out of bounds"
      else walkDirs rest cur.dropLast
    else walkDirs rest (cur ++ [name])

/-- shell.py parse_path (lines 648-682): `-` returns the previous working
path, an empty path returns the current one; otherwise the path is
normalized, split on `/` and walked relative to either the root marker
(absolute input) or the current path split on `/`, and the result is
rejoined as an absolute path (with a trailing slash re-applied if the input
had one). -/
def parse_path (cwd last_cwd : String) (path : String) : Except String String :=
  if path = "-" then .ok last_cwd
  else if path = "" then .ok cwd
  else
    let p := pretty_path path false false
    let trailing := p.data.getLast? = some '/'
    let cur_dirs := if p.data.head? = some '/' then ["/"] else strSplit cwd '/'
    let dirs := strSplit p '/'
    (walkDirs dirs cur_dirs).map fun ds =>
      let fp := pretty_path (pyJoin '/' ds) true false
      if trailing ∧ ¬ fp.data.getLast? = some '/' then fp ++ "/" else fp

/-- JSON-like values held in the shell parameter mapping. -/
inductive PV where
  | str (s : String)
  | bool (b : Bool)
  | num (n : Int)
  | list (xs : List PV)
  | obj (kvs : List (String × PV))

/-- shell.py lines 402-409: before dispatching an HTTP verb the shell runs
`args['api_args'].update(self.env('vars'))` and sends the result as the
request body, i.e. the environment vars are written over the explicit
per-command parameters. -/
def mergedRequestBody (api_args env_vars : List (String × PV)) : List (String × PV) :=
  dictUpdate api_args env_vars

/-- Python `s.rstrip(c)`: drop every trailing occurrence of `c`. -/
def rstripChar (c : Char) (s : String) : String :=
  ⟨(s.data.reverse.dropWhile (fun x => x = c)).reverse⟩

/-- shell.py lines 637-645: the dotted-path walk. Each intermediate part is
looked up in the current mapping; a missing part gets a fresh empty mapping,
an existing mapping is descended into, and any non-mapping value already
present makes the walk (or the final item assignment) raise a TypeError in
Python, modelled as an error. -/
def setParamPath : List (String × PV) → List String → String → PV →
    Except String (List (String × PV))
  | obj, [], key, value => .ok (dictSet obj key value)
  | obj, p :: rest, key, value =>
    match dictGet obj p with
    | none =>
      (setParamPath [] rest key value).map fun child => dictSet obj p (PV.obj child)
    | some (PV.obj o) =>
      (setParamPath o rest key value).map fun child => dictSet obj p (PV.obj child)
    | some _ => .error "TypeError: non-mapping value along parameter path"

/-- shell.py lines 632-645: assignment of a parsed value under a (possibly
dotted) parameter name. -/
def assignParam (params : List (String × PV)) (param : String) (value : PV) :
    Except String (List (String × PV)) :=
  if ¬ param.data.contains '.' then .ok (dictSet params param value)
  else
    let p_parts := strSplit param '.'
    let key := p_parts.getLast?.getD ""
    setParamPath params p_parts.dropLast key value

/-- shell.py parse_param (lines 594-646). The token is split at the first
`=`; with no `=` the bare word becomes a boolean (false when prefixed with
`^`, the `^` prefix stripped); otherwise a name ending in `:` JSON-decodes
the value via the external JSON codec, a name ending in `+` fetches the
value from the data store (failing when absent), and anything else assigns
the raw string. The result is merged into `params` by `assignParam`. -/
def parse_param (jsonDecode : String → Except String PV)
    (data_store : List (String × PV)) (tok : String)
    (params : List (String × PV)) : Except String (List (String × PV)) :=
  match splitFirstStr tok '=' with
  | none =>
    let value := if tok.data.head? = some '^' then PV.bool false else PV.bool true
    let param : String := ⟨tok.data.dropWhile (fun c => c = '^')⟩
    assignParam params param value
  | some pv =>
    let param := pv.1
    let vstr := pv.2
    if param.data.getLast? = some ':' then
      match jsonDecode vstr with
      | .ok v => assignParam params (rstripChar ':' param) v
      | .error e => .error e
    else if param.data.getLast? = some '+' then
      let p := rstripChar '+' param
      match dictGet data_store p with
      | none => .error "Variable is not in memory"
      | some v => assignParam params p v
    else assignParam params param (PV.str vstr)

/-- Characters urllib.parse.quote never encodes with its default
`safe='/'`: ASCII letters, digits, `_ . - ~` and `/`. -/
def isSafeChar (c : Nat) : Bool :=
  (65 ≤ c ∧ c ≤ 90) ∨ (97 ≤ c ∧ c ≤ 122) ∨ (48 ≤ c ∧ c ≤ 57) ∨
    c = 95 ∨ c = 46 ∨ c = 45 ∨ c = 126 ∨ c = 47

/-- UTF-8 encoding of one Unicode scalar value. -/
def utf8EncodeChar (c : Nat) : List Nat :=
  if c < 128 then [c]
  else if c < 2048 then [192 + c / 64, 128 + c % 64]
  else if c < 65536 then [224 + c / 4096, 128 + c / 64 % 64, 128 + c % 64]
  else [240 + c / 262144, 128 + c / 4096 % 64, 128 + c / 64 % 64, 128 + c % 64]

/-- Uppercase hexadecimal digit, as urllib.parse.quote emits. -/
def hexDigit (n : Nat) : Nat := if n < 10 then 48 + n else 55 + n

/-- One percent-escaped byte, `%XX`. -/
def pctEncodeByte (b : Nat) : PyStr := [37, hexDigit (b / 16), hexDigit (b % 16)]

/-- urllib.parse.quote on one code point: safe characters pass through,
everything else is percent-escaped byte by byte of its UTF-8 encoding. -/
def quoteChar (c : Nat) : PyStr :=
  if isSafeChar c then [c] else List.flatten ((utf8EncodeChar c).map pctEncodeByte)

/-- urllib.parse.quote with the default safe set. -/
def quote (s : PyStr) : PyStr := List.flatten (s.map quoteChar)

/-- Values of the Python dicts fed to build_query (string keys at every
level, scalar / bool / number / list / mapping values). -/
inductive JVal where
  | str (s : PyStr)
  | bool (b : Bool)
  | num (n : Int)
  | list (xs : List JVal)
  | obj (kvs : List (PyStr × JVal))

mutual
/-- Python repr, as far as build_query can observe it through `str(val)`
applied to list elements (39, 123 and 125 are the apostrophe and brace code
points). -/
def jvalRepr : JVal → PyStr
  | .str s => 39 :: s ++ [39]
  | .bool b => pyStr (if b then "True" else "False")
  | .num n => pyStr (toString n)
  | .list xs => 91 :: jvalReprs xs ++ [93]
  | .obj kvs => 123 :: jvalReprKvs kvs ++ [125]
def jvalReprs : List JVal → PyStr
  | [] => []
  | [x] => jvalRepr x
  | x :: rest => jvalRepr x ++ pyStr ", " ++ jvalReprs rest
def jvalReprKvs : List (PyStr × JVal) → PyStr
  | [] => []
  | [(k, v)] => 39 :: k ++ [39, 58, 32] ++ jvalRepr v
  | (k, v) :: rest => 39 :: k ++ [39, 58, 32] ++ jvalRepr v ++ pyStr ", " ++ jvalReprKvs rest
end

/-- Python `str(val)`: strings pass through, other values use their repr
(True/False for booleans, decimal for integers). -/
def jvalStr : JVal → PyStr
  | .str s => s
  | v => jvalRepr v

/-- client.py lines 431-436: the list branch of build_query, producing
`key[i]=value&` for each element. -/
def bqList (newkey : PyStr) (i : Nat) : List JVal → PyStr
  | [] => []
  | val :: rest =>
    newkey ++ quote (91 :: pyStr (toString i) ++ [93]) ++ pyStr "=" ++
      quote (jvalStr val) ++ pyStr "&" ++ bqList newkey (i + 1) rest

mutual
/-- client.py build_query (lines 414-446): empty mappings encode to the
empty string; otherwise each pair contributes a piece (nested mappings
recurse with the bracketed key, lists expand per element, booleans encode
as 1/0, anything else stringifies), and one trailing `&` is stripped when
the result is nonempty, the call is top-level (`topkey == ''`) and the last
character is `&`. -/
def build_query (params : List (PyStr × JVal)) (topkey : PyStr) : PyStr :=
  if params.isEmpty then []
  else
    let result := bqLoop params topkey
    if result ≠ [] ∧ topkey = [] ∧ result.getLast? = some 38 then result.dropLast
    else result

/-- The `for key in params.keys()` loop body of build_query. -/
def bqLoop : List (PyStr × JVal) → PyStr → PyStr
  | [], _ => []
  | (key, v) :: rest, topkey =>
    let newkey := if topkey = [] then quote key else topkey ++ quote (91 :: key ++ [93])
    (match v with
     | .obj sub => build_query sub newkey
     | .list xs => bqList newkey 0 xs
     | .bool b => newkey ++ pyStr "=" ++ quote (pyStr (if b then "1" else "0")) ++ pyStr "&"
     | v => newkey ++ pyStr "=" ++ quote (jvalStr v) ++ pyStr "&")
    ++ bqLoop rest topkey
end

/-! ## Query merging and URL construction (client.py lines 88-113, 448-469) -/
def lstripL (c : Nat) (l : PyStr) : PyStr := l.dropWhile (fun x => x = c)

def rstripL (c : Nat) (l : PyStr) : PyStr := (l.reverse.dropWhile (fun x => x = c)).reverse

def stripL (c : Nat) (l : PyStr) : PyStr := rstripL c (lstripL c l)

/-- client.py merge_query (lines 448-459): strips one leading `?` from the
first query, returns it unchanged when the second is missing or empty, else
strips one leading `?` from the second and joins with `&`. -/
def merge_query (query1 : PyStr) (query2 : Option PyStr) : PyStr :=
  let q1 := if query1.head? = some 63 then query1.tail else query1
  match query2 with
  | none => q1
  | some q2 =>
    if q2 = [] then q1
    else
      let q2 := if q2.head? = some 63 then q2.tail else q2
      q1 ++ 38 :: q2

/-- client.py merge_url_query (lines 461-469): when the URL already has a
`?` the existing query is merged with the new one, then the (stripped)
query is joined back with `?` and a dangling trailing `?` is removed. -/
def merge_url_query (url query : PyStr) : PyStr :=
  let p : PyStr × PyStr :=
    match splitFirstL url 63 with
    | some q => (q.1, merge_query q.2 (some query))
    | none => (url, query)
  rstripL 63 (p.1 ++ 63 :: stripL 63 p.2)

/-- The base-URL fields build_url reads (the parsed dict stored by
set_base_url). -/
structure BaseUrl where
  scheme : PyStr
  hostname : PyStr
  port : Int
  path : PyStr
  query : PyStr

/-- client.py build_url (lines 88-113): the base path and request path are
joined and prettified with a forced leading slash, the port is omitted for
80/443, and first the base URL query (if any) then the per-call query (if
any) are merged onto the URL. -/
def build_url (base : BaseUrl) (path : PyStr) (query : Option PyStr) : PyStr :=
  let path := prettyPathCore 47 (List.intercalate (pyStr "/") [[], base.path, path]) true false
  let portStr : PyStr := if base.port = 80 ∨ base.port = 443 then [] else 58 :: pyStr (toString base.port)
  let url := base.scheme ++ pyStr "://" ++ base.hostname ++ portStr ++ path
  let url := if base.query ≠ [] then merge_url_query url base.query else url
  match query with
  | some q => if q ≠ [] then merge_url_query url q else url
  | none => url

/-- client.py merge_headers (lines 72-86): all names lower-cased, later
assignments win. -/
def merge_headers (base new : List (String × String)) : List (String × String) :=
  let merged := dictUpdate [] (base.map fun kv => (pyLower kv.1, kv.2))
  if new.isEmpty then merged
  else dictUpdate merged (new.map fun kv => (pyLower kv.1, kv.2))

/-- client.py get_header (lines 471-480): first value whose lower-cased name
matches the lower-cased header name, None when absent. -/
def get_header (headers : List (String × String)) (header : String) : Option String :=
  match headers with
  | [] => none
  | (k, v) :: rest => if pyLower k = pyLower header then some v else get_header rest header

/-- List version of Python str.startswith (first argument is the string,
second the candidate start). -/
def listStarts {α : Type} [DecidableEq α] : List α → List α → Bool
  | _, [] => true
  | [], _ :: _ => false
  | x :: xs, y :: ys => x = y && listStarts xs ys

def pyStartsWith (s start : String) : Bool := listStarts s.data start.data

/-- UTF-8 bytes of a Lean string (via code points). -/
def utf8Str (s : String) : List Nat :=
  List.flatten ((s.data.map Char.toNat).map utf8EncodeChar)

/-- Standard base64 alphabet. -/
def b64char (n : Nat) : Nat :=
  if n < 26 then 65 + n
  else if n < 52 then 97 + (n - 26)
  else if n < 62 then 48 + (n - 52)
  else if n = 62 then 43 else 47

/-- Standard base64 of a byte list (with `=` padding), modelling
base64.b64encode. -/
def base64encode : List Nat → List Nat
  | [] => []
  | [a] => [b64char (a / 4), b64char (a % 4 * 16), 61, 61]
  | [a, b] => [b64char (a / 4), b64char (a % 4 * 16 + b / 16), b64char (b % 16 * 4), 61]
  | a :: b :: c :: rest =>
    [b64char (a / 4), b64char (a % 4 * 16 + b / 16), b64char (b % 16 * 4 + c / 64),
      b64char (c % 64)] ++ base64encode rest

/-- The query argument of client.py request (line 242): None, a string, a
list of strings, or a mapping. -/
inductive QueryArg where
  | none
  | str (s : PyStr)
  | list (xs : List PyStr)
  | dict (d : List (PyStr × JVal))

/-- client.py lines 270-273: a list query is joined with `&`, a dict is run
through build_query, a string (or None) is used as-is. -/
def normQuery : QueryArg → Option PyStr
  | .none => Option.none
  | .str s => some s
  | .list xs => some (List.intercalate [38] xs)
  | .dict d => some (build_query d [])

/-- The transport body handed to urllib.request.Request. The constructor
records which encoder ran on the body mapping: `jsonBytes` denotes
`json.dumps(body).encode('utf-8')`, `formUrlencoded` denotes
`urllib.parse.urlencode(body)`, and `verbatim` is the unmodified body. -/
inductive ReqBody where
  | jsonBytes (body : List (PyStr × JVal))
  | formUrlencoded (body : List (PyStr × JVal))
  | verbatim (body : List (PyStr × JVal))

/-- What the modelled part of client.py request produces just before the
transport call: the normalized method, the final URL, the merged headers,
the final query string and the body (`dataSent = none` means the `data`
request argument is never set, as happens for GET/HEAD). -/
structure ReqSliceOut where
  method : String
  url : PyStr
  headers : List (String × String)
  queryFinal : Option PyStr
  dataSent : Option ReqBody

/-- client.py request (lines 237-345) up to the transport call, for a
mapping body: method normalization, query normalization, the GET/HEAD
body-to-query fold, URL construction, header assembly (defaults, cookie
jar, basic auth with empty-string falsiness, caller headers) and
content-type driven body encoding. -/
def requestSlice (base : BaseUrl) (cookies : List (String × String))
    (defaultBasicAuth : String) (method : Option String) (path : PyStr)
    (body : List (PyStr × JVal)) (query : QueryArg)
    (headers : List (String × String)) (basicAuth : String)
    (preFormattedBody : Bool) : ReqSliceOut :=
  let M := normalizeMethod method
  let path := if path = [] then pyStr "/" else path
  let q := normQuery query
  let q :=
    if (M = "GET" ∨ M = "HEAD") ∧ ¬ body.isEmpty then
      some (merge_query (build_query body []) q)
    else q
  let url := build_url base path q
  let hdrs := merge_headers
    [("content-Type", "application/json"), ("accept", "application/json")] []
  let cookieStrs := cookies.map fun kv => kv.1 ++ "=" ++ kv.2
  let hdrs :=
    if ¬ cookieStrs.isEmpty then merge_headers hdrs [("cookie", pyJoin '&' cookieStrs)]
    else hdrs
  let auth := if basicAuth ≠ "" then basicAuth else defaultBasicAuth
  let hdrs :=
    if auth ≠ "" then
      merge_headers hdrs
        [("authorization", "Basic " ++ strOfPy (base64encode (utf8Str auth)))]
    else hdrs
  let hdrs := if ¬ headers.isEmpty then merge_headers hdrs headers else hdrs
  let dataSent : Option ReqBody :=
    if M = "GET" ∨ M = "HEAD" then Option.none
    else some (
      if preFormattedBody then ReqBody.verbatim body
      else
        let ct := (get_header hdrs "content-type").getD ""
        if pyStartsWith ct "application/json" then ReqBody.jsonBytes body
        else if ct = "application/x-www-form-urlencoded" then ReqBody.formUrlencoded body
        else ReqBody.verbatim body)
  ⟨M, url, hdrs, q, dataSent⟩

/-! ## C7: parse_qs / build_query_obj (client.py lines 398-412) and the
urllib.parse.unquote model -/
def isHexDigitN (c : Nat) : Bool :=
  (48 ≤ c ∧ c ≤ 57) ∨ (65 ≤ c ∧ c ≤ 70) ∨ (97 ≤ c ∧ c ≤ 102)

def hexVal (c : Nat) : Nat :=
  if c ≤ 57 then c - 48 else if c ≤ 70 then c - 55 else c - 87

/-- Percent-escape scanner of urllib.parse.unquote: a `%` followed by two
hex digits becomes a byte (`Sum.inr`), everything else stays a literal
character (`Sum.inl`). -/
def pctTokens : List Nat → List (Nat ⊕ Nat)
  | [] => []
  | c :: a :: b :: rest =>
    if c = 37 ∧ isHexDigitN a = true ∧ isHexDigitN b = true then
      Sum.inr (hexVal a * 16 + hexVal b) :: pctTokens rest
    else Sum.inl c :: pctTokens (a :: b :: rest)
  | c :: rest => Sum.inl c :: pctTokens rest

/-- Standard UTF-8 decoder (used by unquote on each maximal byte run);
ill-formed sequences produce U+FFFD, matching errors='replace'. -/
def utf8Decode : List Nat → List Nat
  | [] => []
  | [b] => if b < 128 then [b] else [65533]
  | [b, b1] =>
    if b < 128 then b :: utf8Decode [b1]
    else if 192 ≤ b ∧ b < 224 then
      if 128 ≤ b1 ∧ b1 < 192 then [(b - 192) * 64 + (b1 - 128)]
      else 65533 :: utf8Decode [b1]
    else 65533 :: utf8Decode [b1]
  | [b, b1, b2] =>
    if b < 128 then b :: utf8Decode [b1, b2]
    else if 192 ≤ b ∧ b < 224 then
      if 128 ≤ b1 ∧ b1 < 192 then
        ((b - 192) * 64 + (b1 - 128)) :: utf8Decode [b2]
      else 65533 :: utf8Decode [b1, b2]
    else if 224 ≤ b ∧ b < 240 then
      if (128 ≤ b1 ∧ b1 < 192) ∧ (128 ≤ b2 ∧ b2 < 192) then
        [(b - 224) * 4096 + (b1 - 128) * 64 + (b2 - 128)]
      else 65533 :: utf8Decode [b1, b2]
    else 65533 :: utf8Decode [b1, b2]
  | b :: b1 :: b2 :: b3 :: rest =>
    if b < 128 then b :: utf8Decode (b1 :: b2 :: b3 :: rest)
    else if 192 ≤ b ∧ b < 224 then
      if 128 ≤ b1 ∧ b1 < 192 then
        ((b - 192) * 64 + (b1 - 128)) :: utf8Decode (b2 :: b3 :: rest)
      else 65533 :: utf8Decode (b1 :: b2 :: b3 :: rest)
    else if 224 ≤ b ∧ b < 240 then
      if (128 ≤ b1 ∧ b1 < 192) ∧ (128 ≤ b2 ∧ b2 < 192) then
        ((b - 224) * 4096 + (b1 - 128) * 64 + (b2 - 128)) :: utf8Decode (b3 :: rest)
      else 65533 :: utf8Decode (b1 :: b2 :: b3 :: rest)
    else if 240 ≤ b ∧ b < 248 then
      if (128 ≤ b1 ∧ b1 < 192) ∧ (128 ≤ b2 ∧ b2 < 192) ∧ (128 ≤ b3 ∧ b3 < 192) then
        ((b - 240) * 262144 + (b1 - 128) * 4096 + (b2 - 128) * 64 + (b3 - 128)) ::
          utf8Decode rest
      else 65533 :: utf8Decode (b1 :: b2 :: b3 :: rest)
    else 65533 :: utf8Decode (b1 :: b2 :: b3 :: rest)

/-- Token post-processing of unquote: literal characters pass through, each
maximal run of percent-decoded bytes is UTF-8 decoded as a unit. -/
def detokAux (run : List Nat) : List (Nat ⊕ Nat) → List Nat
  | [] => utf8Decode run.reverse
  | Sum.inl c :: rest => utf8Decode run.reverse ++ c :: detokAux [] rest
  | Sum.inr b :: rest => detokAux (b :: run) rest

/-- urllib.parse.unquote. -/
def unquote (s : PyStr) : PyStr := detokAux [] (pctTokens s)

/-- urllib.parse.unquote_plus: `+` becomes a space, then unquote. -/
def unquote_plus (s : PyStr) : PyStr :=
  unquote (s.map fun c => if c = 43 then 32 else c)

/-- urllib.parse.parse_qsl with the modern single `&` separator: split on
`&`, skip empty chunks, split each chunk at the first `=` (a chunk without
`=` gets an empty value and survives only with keep_blank_values), and
unquote_plus both sides. -/
def parse_qsl (qs : PyStr) (keepBlanks : Bool) : List (PyStr × PyStr) :=
  (splitOnL 38 qs).filterMap fun chunk =>
    if chunk.isEmpty then none
    else
      match splitFirstL chunk 61 with
      | some nv =>
        if ¬ nv.2.isEmpty ∨ keepBlanks = true then
          some (unquote_plus nv.1, unquote_plus nv.2)
        else none
      | none =>
        if keepBlanks then some (unquote_plus chunk, unquote_plus []) else none

/-- The dict-building loop of urllib.parse.parse_qs: values accumulate per
key in first-occurrence order. -/
def qsAppend : List (PyStr × List PyStr) → PyStr → PyStr → List (PyStr × List PyStr)
  | [], k, v => [(k, [v])]
  | (k0, vs) :: rest, k, v =>
    if k0 = k then (k0, vs ++ [v]) :: rest else (k0, vs) :: qsAppend rest k v

def qsGroup (pairs : List (PyStr × PyStr)) : List (PyStr × List PyStr) :=
  pairs.foldl (fun acc kv => qsAppend acc kv.1 kv.2) []

/-- A parsed query value: multi-valued keys stay lists, single values are
flattened to scalars. -/
inductive QV where
  | scalar (s : PyStr)
  | list (ss : List PyStr)
deriving DecidableEq

/-- client.py build_query_obj (lines 398-412): parse_qs (modelled as
parse_qsl + grouping) followed by flattening of single-element lists. -/
def build_query_obj (query : PyStr) (keepBlanks : Bool) : List (PyStr × QV) :=
  (qsGroup (parse_qsl query keepBlanks)).map fun kvs =>
    match kvs.2 with
    | [v] => (kvs.1, QV.scalar v)
    | vs => (kvs.1, QV.list vs)

/-- Valid Python string contents for urllib.parse.quote: Unicode scalar
values only (quote raises UnicodeEncodeError on lone surrogates). -/
def ValidPy (s : PyStr) : Prop :=
  ∀ c ∈ s, c < 1114112 ∧ ¬ (55296 ≤ c ∧ c ≤ 57343)

/-- The token image of one character under quote-then-scan: safe characters
stay literal, unsafe ones appear as their UTF-8 bytes. -/
def tokChar (c : Nat) : List (Nat ⊕ Nat) :=
  if isSafeChar c then [Sum.inl c] else (utf8EncodeChar c).map Sum.inr

/-- Python `'&'.join` on code point lists (proof-side normal form of
build_query output). -/
def joinAmp : List PyStr → PyStr
  | [] => []
  | [c] => c
  | c :: rest => c ++ 38 :: joinAmp rest

instance (s : PyStr) : Decidable (ValidPy s) := by
  unfold ValidPy
  infer_instance


/-- C1: the claim states every verb wrapper issues its own HTTP method; the
code evaluated at the failing input shows `head` hands the transport the
method GET, not HEAD (client.py line 194), contradicting its docstring and
the expectation of test_verbs in tests/test_client.py. -/
theorem c1_head_issues_get :
    transportMethod Verb.head = "GET" ∧
      transportMethod Verb.head ≠ pyUpper (verbName Verb.head) := by
  constructor
  · rfl
  · decide

/-- C2 counterexample: the claim says no status below 400 raises, but the
code raises the base HttpError for any status below 200; at status 100 the
completed request is an error carrying the constructed Response. -/
theorem c2_counterexample :
    finishRequest 100 () [] = Except.error (HttpErrCls.base, ⟨100, (), []⟩) := by
  rfl

/-- C2 amended: a status of 500 or greater raises ServerHttpError and a
status in 400-499 raises UserHttpError, both carrying the full Response; a
status in 200-399 (including 300-399) constructs the Response and raises no
error; and a status below 200 raises the base HttpError, also carrying the
Response. -/
theorem c2_status_classification (status : Nat) {α : Type} (decoded : α) (data : List Nat) :
    (500 ≤ status → finishRequest status decoded data =
      Except.error (HttpErrCls.server, ⟨status, decoded, data⟩)) ∧
    (400 ≤ status → status < 500 → finishRequest status decoded data =
      Except.error (HttpErrCls.user, ⟨status, decoded, data⟩)) ∧
    (200 ≤ status → status < 400 → finishRequest status decoded data =
      Except.ok ⟨status, decoded, data⟩) ∧
    (status < 200 → finishRequest status decoded data =
      Except.error (HttpErrCls.base, ⟨status, decoded, data⟩)) := by
  unfold finishRequest
  refine ⟨fun h => ?_, fun h1 h2 => ?_, fun h1 h2 => ?_, fun h => ?_⟩ <;>
    split_ifs <;> first | rfl | omega

/-- C2 witness: the amended classification applied at concrete statuses 503,
404, 301 and 100. -/
theorem c2_status_classification_witness :
    finishRequest 503 () [] = Except.error (HttpErrCls.server, ⟨503, (), []⟩) ∧
    finishRequest 404 () [] = Except.error (HttpErrCls.user, ⟨404, (), []⟩) ∧
    finishRequest 301 () [] = Except.ok ⟨301, (), []⟩ ∧
    finishRequest 150 () [] = Except.error (HttpErrCls.base, ⟨150, (), []⟩) :=
  ⟨(c2_status_classification 503 () []).1 (by omega),
   (c2_status_classification 404 () []).2.1 (by omega) (by omega),
   (c2_status_classification 301 () []).2.2.1 (by omega) (by omega),
   (c2_status_classification 150 () []).2.2.2 (by omega)⟩

/-- C3: the claim says every port outside [1, 65535] is rejected and that the
base URL `:0` fails, but the code evaluated at that failing input succeeds:
client.py set_port accepts port 0 (its guard is `port >= 0`), so
set_base_url stores port 0, while `:65536` is indeed rejected and the newer
types.py Url.validate rejects port 0 as the claim (and the test list in
tests/test_client.py) expects. -/
theorem c3_port_zero_accepted :
    set_base_url ":0" = Except.ok ("http", "localhost", 0) ∧
    set_port 0 = Except.ok 0 ∧
    set_base_url ":65536" = Except.error "Invalid API service port" ∧
    Url.validate ⟨"http", "localhost", 0, "", "", "", ""⟩ =
      Except.error "Invalid API service port" := by
  refine ⟨?_, by rfl, ?_, by rfl⟩ <;> rfl

/-- C10: whenever the fragment is nonempty, the serialized URL produced by
the types.py Url serializer appends `#` followed by the QUERY field (source
line 62 interpolates self.query after the hash), so the fragment text itself
is never used. -/
theorem c10_fragment_renders_query (u : Url) (h : u.fragment ≠ "") :
    u.render = Url.render { u with fragment := "" } ++ "#" ++ u.query := by
  unfold Url.render
  simp [h]

/-- C10 witness: the fragment-bearing URL renders with the query after the
hash. -/
theorem c10_fragment_renders_query_witness :
    Url.render ⟨"http", "example.com", 80, "/p", "q=1", "", "frag"⟩ =
      Url.render ⟨"http", "example.com", 80, "/p", "q=1", "", ""⟩ ++ "#" ++ "q=1" :=
  c10_fragment_renders_query ⟨"http", "example.com", 80, "/p", "q=1", "", "frag"⟩
    (by decide)

/-- C4 counterexample: the claim says resolving `../../..` against `/a/b`
fails with PathOutOfBounds, but the code resolves it to the root: splitting
`/a/b` on `/` yields a leading empty segment which `..` happily pops, so only
a fourth `..` runs out of segments. -/
theorem c4_counterexample :
    parse_path "/a/b" "/" "../../.." = Except.ok "/" := by
  rfl

/-- C4 amended: `..` pops one collected segment and resolution fails exactly
when a `..` arrives while the collected segment list is already empty;
against current path `/a/b`, `..` resolves to `/a`, but `../../..` resolves
to `/` without error (the leading empty segment of `/a/b`.split counts as
poppable), and only `../../../..` fails with the out-of-bounds error. -/
theorem c4_path_resolution :
    parse_path "/a/b" "/" ".." = Except.ok "/a" ∧
    parse_path "/a/b" "/" "../../.." = Except.ok "/" ∧
    parse_path "/a/b" "/" "../../../.." = Except.error "URI is out of bounds" ∧
    (∀ rest : List String, walkDirs (".." :: rest) [] =
      Except.error "URI is out of bounds") := by
  refine ⟨rfl, rfl, rfl, fun rest => rfl⟩

theorem dictGet_dictSet_self {α β : Type} [DecidableEq α]
    (d : List (α × β)) (k : α) (v : β) : dictGet (dictSet d k v) k = some v := by
  induction d with
  | nil => simp [dictSet, dictGet]
  | cons kv rest ih =>
    by_cases h : kv.1 = k
    · simp [dictSet, h, dictGet]
    · simp [dictSet, h, dictGet, ih]

theorem dictGet_dictSet_ne {α β : Type} [DecidableEq α]
    (d : List (α × β)) (k key : α) (v : β) (h : k ≠ key) :
    dictGet (dictSet d k v) key = dictGet d key := by
  induction d with
  | nil => simp [dictSet, dictGet, h]
  | cons kv rest ih =>
    by_cases hk : kv.1 = k
    · simp [dictSet, hk, dictGet, h]
    · simp [dictSet, hk, dictGet, ih]

theorem dictGet_eq_none {α β : Type} [DecidableEq α] (d : List (α × β)) (key : α)
    (h : key ∉ d.map Prod.fst) : dictGet d key = none := by
  induction d with
  | nil => rfl
  | cons kv rest ih =>
    simp only [List.map_cons, List.mem_cons, not_or] at h
    simp only [dictGet]
    rw [if_neg (fun hh => h.1 hh.symm), ih h.2]

theorem dictGet_dictUpdate {α β : Type} [DecidableEq α]
    (other : List (α × β)) (d : List (α × β)) (key : α)
    (hnd : (other.map Prod.fst).Nodup) :
    dictGet (dictUpdate d other) key =
      (dictGet other key).or (dictGet d key) := by
  induction other generalizing d with
  | nil => rfl
  | cons kv rest ih =>
    have hnd2 : (kv.1 :: rest.map Prod.fst).Nodup := by simpa using hnd
    have hout : kv.1 ∉ rest.map Prod.fst := (List.nodup_cons.mp hnd2).1
    have hnd' : (rest.map Prod.fst).Nodup := (List.nodup_cons.mp hnd2).2
    have step : dictUpdate d (kv :: rest) = dictUpdate (dictSet d kv.1 kv.2) rest := rfl
    rw [step, ih _ hnd']
    by_cases hk : kv.1 = key
    · subst hk
      have hnone : dictGet rest kv.1 = none := dictGet_eq_none rest kv.1 hout
      have hcons : dictGet (kv :: rest) kv.1 = some kv.2 := by simp [dictGet]
      rw [hnone, hcons]
      exact dictGet_dictSet_self d kv.1 kv.2
    · rw [dictGet_dictSet_ne d kv.1 key kv.2 hk]
      have hcons : dictGet (kv :: rest) key = dictGet rest key := by simp [dictGet, hk]
      rw [hcons]

/-- C8 counterexample: the claim says explicit per-command parameters win on
key collisions, but with an explicit parameter k=explicit and an environment
var k=env the merged body carries the environment value. -/
theorem c8_counterexample :
    mergedRequestBody [("k", PV.str "explicit")] [("k", PV.str "env")] =
      [("k", PV.str "env")] ∧
    mergedRequestBody [("k", PV.str "explicit")] [("k", PV.str "env")] ≠
      [("k", PV.str "explicit")] := by
  refine ⟨rfl, fun h => ?_⟩
  simp [mergedRequestBody, dictUpdate, dictSet] at h

/-- C8 amended: the request body is the merge of the explicit per-command
parameters with the shell environment vars such that the explicit parameters
act as defaults and the environment vars win on every key collision (the
shell runs api_args.update(env_vars)). -/
theorem c8_env_vars_override (api_args env_vars : List (String × PV)) (key : String)
    (hnd : (env_vars.map Prod.fst).Nodup) :
    dictGet (mergedRequestBody api_args env_vars) key =
      (dictGet env_vars key).or (dictGet api_args key) := by
  unfold mergedRequestBody
  exact dictGet_dictUpdate env_vars api_args key hnd

/-- C8 witness: the amended rule applied at a concrete collision. -/
theorem c8_env_vars_override_witness :
    dictGet (mergedRequestBody [("k", PV.str "explicit")] [("k", PV.str "env")]) "k" =
      some (PV.str "env") :=
  c8_env_vars_override [("k", PV.str "explicit")] [("k", PV.str "env")] "k" (by decide)

/-- C9 counterexample: the claim says a non-mapping value already present
along the dotted path is overwritten, but parsing `a.b=3` against existing
parameters where `a` holds the string `x` raises a TypeError in Python (the
string is either indexed or item-assigned), not an overwrite. -/
theorem c9_counterexample :
    parse_param (fun _ => Except.error "unused") [] "a.b=3" [("a", PV.str "x")] =
      Except.error "TypeError: non-mapping value along parameter path" := by
  rfl

/-- C9 amended: a dotted parameter token builds/merges a nested mapping,
creating intermediate mappings as needed (`a.b=3` yields a nested mapping
and `a.b.c=v` creates two levels), but when a non-mapping value is already
present along the dotted path the parse fails (Python TypeError) instead of
overwriting it. -/
theorem c9_dotted_param_nesting (jd : String → Except String PV)
    (ds : List (String × PV)) :
    parse_param jd ds "a.b=3" [] =
      Except.ok [("a", PV.obj [("b", PV.str "3")])] ∧
    parse_param jd ds "a.b.c=v" [] =
      Except.ok [("a", PV.obj [("b", PV.obj [("c", PV.str "v")])])] ∧
    parse_param jd ds "a.b=3" [("a", PV.str "x")] =
      Except.error "TypeError: non-mapping value along parameter path" := by
  exact ⟨rfl, rfl, rfl⟩

/-- C5: for every GET or HEAD request with a non-empty body mapping, the
`data` transport argument is never set (no body is sent) and the body is
query-encoded with build_query and merged (via merge_query) into the query
string that build_url folds into the request URL. -/
theorem c5_get_head_body_to_query (base : BaseUrl) (cookies : List (String × String))
    (defaultBasicAuth : String) (method : Option String) (path : PyStr)
    (body : List (PyStr × JVal)) (query : QueryArg)
    (headers : List (String × String)) (basicAuth : String) (preFormattedBody : Bool)
    (hm : normalizeMethod method = "GET" ∨ normalizeMethod method = "HEAD")
    (hb : ¬ body.isEmpty) :
    (requestSlice base cookies defaultBasicAuth method path body query headers
        basicAuth preFormattedBody).dataSent = none ∧
    (requestSlice base cookies defaultBasicAuth method path body query headers
        basicAuth preFormattedBody).queryFinal =
      some (merge_query (build_query body []) (normQuery query)) ∧
    (requestSlice base cookies defaultBasicAuth method path body query headers
        basicAuth preFormattedBody).url =
      build_url base (if path = [] then pyStr "/" else path)
        (some (merge_query (build_query body []) (normQuery query))) := by
  simp only [requestSlice]
  rw [if_pos (⟨hm, hb⟩ :
    (normalizeMethod method = "GET" ∨ normalizeMethod method = "HEAD") ∧ ¬ body.isEmpty)]
  rw [if_pos hm]
  exact ⟨rfl, rfl, rfl⟩

/-- C5 witness: a concrete GET with body mapping foo=bar and no other query
sends no data and folds the encoded body into the query and URL. -/
theorem c5_get_head_body_to_query_witness :
    (requestSlice ⟨pyStr "http", pyStr "localhost", 80, [], []⟩ [] "" (some "get")
        (pyStr "/x") [(pyStr "foo", JVal.str (pyStr "bar"))] QueryArg.none [] ""
        false).dataSent = none ∧
    (requestSlice ⟨pyStr "http", pyStr "localhost", 80, [], []⟩ [] "" (some "get")
        (pyStr "/x") [(pyStr "foo", JVal.str (pyStr "bar"))] QueryArg.none [] ""
        false).queryFinal =
      some (merge_query (build_query [(pyStr "foo", JVal.str (pyStr "bar"))] [])
        (normQuery QueryArg.none)) ∧
    (requestSlice ⟨pyStr "http", pyStr "localhost", 80, [], []⟩ [] "" (some "get")
        (pyStr "/x") [(pyStr "foo", JVal.str (pyStr "bar"))] QueryArg.none [] ""
        false).url =
      build_url ⟨pyStr "http", pyStr "localhost", 80, [], []⟩
        (if pyStr "/x" = ([] : PyStr) then pyStr "/" else pyStr "/x")
        (some (merge_query (build_query [(pyStr "foo", JVal.str (pyStr "bar"))] [])
          (normQuery QueryArg.none))) :=
  c5_get_head_body_to_query ⟨pyStr "http", pyStr "localhost", 80, [], []⟩ [] ""
    (some "get") (pyStr "/x") [(pyStr "foo", JVal.str (pyStr "bar"))] QueryArg.none
    [] "" false (Or.inl (by decide)) (by decide)

/-- C6: for every non-GET/HEAD request without a pre-formatted body, the
body encoding is selected by the effective content-type header of the
merged headers: a content-type starting with application/json
JSON-serializes the body, a content-type exactly equal to
application/x-www-form-urlencoded form-encodes it, and anything else passes
the body through unchanged. -/
theorem c6_body_encoding_by_content_type (base : BaseUrl)
    (cookies : List (String × String)) (defaultBasicAuth : String)
    (method : Option String) (path : PyStr) (body : List (PyStr × JVal))
    (query : QueryArg) (headers : List (String × String)) (basicAuth : String)
    (hm : ¬ (normalizeMethod method = "GET" ∨ normalizeMethod method = "HEAD")) :
    (pyStartsWith ((get_header (requestSlice base cookies defaultBasicAuth method
          path body query headers basicAuth false).headers "content-type").getD "")
        "application/json" = true →
      (requestSlice base cookies defaultBasicAuth method path body query headers
          basicAuth false).dataSent = some (ReqBody.jsonBytes body)) ∧
    (pyStartsWith ((get_header (requestSlice base cookies defaultBasicAuth method
          path body query headers basicAuth false).headers "content-type").getD "")
        "application/json" = false →
      ((get_header (requestSlice base cookies defaultBasicAuth method path body
          query headers basicAuth false).headers "content-type").getD "") =
        "application/x-www-form-urlencoded" →
      (requestSlice base cookies defaultBasicAuth method path body query headers
          basicAuth false).dataSent = some (ReqBody.formUrlencoded body)) ∧
    (pyStartsWith ((get_header (requestSlice base cookies defaultBasicAuth method
          path body query headers basicAuth false).headers "content-type").getD "")
        "application/json" = false →
      ((get_header (requestSlice base cookies defaultBasicAuth method path body
          query headers basicAuth false).headers "content-type").getD "") ≠
        "application/x-www-form-urlencoded" →
      (requestSlice base cookies defaultBasicAuth method path body query headers
          basicAuth false).dataSent = some (ReqBody.verbatim body)) := by
  have bool_ne_true : ∀ {b : Bool}, b = false → ¬ b = true := by
    intro b h
    simp [h]
  simp only [requestSlice]
  rw [if_neg hm]
  rw [if_neg Bool.false_ne_true]
  refine ⟨fun h1 => ?_, fun h1 h2 => ?_, fun h1 h2 => ?_⟩
  · rw [if_pos h1]
  · rw [if_neg (bool_ne_true h1), if_pos h2]
  · rw [if_neg (bool_ne_true h1), if_neg h2]

/-- C6 witness: a concrete POST with the default headers carries the
JSON-encoded body (the default content-type is application/json). -/
theorem c6_body_encoding_by_content_type_witness :
    (requestSlice ⟨pyStr "http", pyStr "localhost", 80, [], []⟩ [] "" (some "post")
        (pyStr "/") [(pyStr "foo", JVal.str (pyStr "bar"))] QueryArg.none [] ""
        false).dataSent =
      some (ReqBody.jsonBytes [(pyStr "foo", JVal.str (pyStr "bar"))]) :=
  (c6_body_encoding_by_content_type ⟨pyStr "http", pyStr "localhost", 80, [], []⟩ []
    "" (some "post") (pyStr "/") [(pyStr "foo", JVal.str (pyStr "bar"))]
    QueryArg.none [] "" (by decide)).1 (by decide)

/-! ## C7 proof infrastructure: UTF-8 and hex round trips -/
theorem utf8EncodeChar_lt_256 (c : Nat) (h : c < 1114112) :
    ∀ b ∈ utf8EncodeChar c, b < 256 := by
  intro b hb
  unfold utf8EncodeChar at hb
  split_ifs at hb with h1 h2 h3
  · simp at hb; omega
  · simp at hb; rcases hb with rfl | rfl <;> omega
  · simp at hb; rcases hb with rfl | rfl | rfl <;> omega
  · simp at hb; rcases hb with rfl | rfl | rfl | rfl <;> omega

theorem utf8Decode_cons_lt128 (b : Nat) (h : b < 128) (r : List Nat) :
    utf8Decode (b :: r) = b :: utf8Decode r := by
  rcases r with _ | ⟨b1, _ | ⟨b2, _ | ⟨b3, rest⟩⟩⟩ <;> simp [utf8Decode, h]

theorem utf8Decode_cons2 (b b1 : Nat) (hb : 192 ≤ b ∧ b < 224)
    (hb1 : 128 ≤ b1 ∧ b1 < 192) (r : List Nat) :
    utf8Decode (b :: b1 :: r) = ((b - 192) * 64 + (b1 - 128)) :: utf8Decode r := by
  rcases r with _ | ⟨b2, _ | ⟨b3, rest⟩⟩ <;>
    · simp only [utf8Decode]
      rw [if_neg (by omega), if_pos hb, if_pos hb1]

theorem utf8Decode_cons3 (b b1 b2 : Nat) (hb : 224 ≤ b ∧ b < 240)
    (hb1 : 128 ≤ b1 ∧ b1 < 192) (hb2 : 128 ≤ b2 ∧ b2 < 192) (r : List Nat) :
    utf8Decode (b :: b1 :: b2 :: r) =
      ((b - 224) * 4096 + (b1 - 128) * 64 + (b2 - 128)) :: utf8Decode r := by
  rcases r with _ | ⟨b3, rest⟩ <;>
    · simp only [utf8Decode]
      rw [if_neg (by omega), if_neg (by omega), if_pos hb, if_pos ⟨hb1, hb2⟩]

theorem utf8Decode_cons4 (b b1 b2 b3 : Nat) (hb : 240 ≤ b ∧ b < 248)
    (hb1 : 128 ≤ b1 ∧ b1 < 192) (hb2 : 128 ≤ b2 ∧ b2 < 192)
    (hb3 : 128 ≤ b3 ∧ b3 < 192) (r : List Nat) :
    utf8Decode (b :: b1 :: b2 :: b3 :: r) =
      ((b - 240) * 262144 + (b1 - 128) * 4096 + (b2 - 128) * 64 + (b3 - 128)) ::
        utf8Decode r := by
  simp only [utf8Decode]
  rw [if_neg (by omega), if_neg (by omega), if_neg (by omega), if_pos hb,
    if_pos ⟨hb1, hb2, hb3⟩]

theorem utf8_round (c : Nat) (h : c < 1114112) (r : List Nat) :
    utf8Decode (utf8EncodeChar c ++ r) = c :: utf8Decode r := by
  unfold utf8EncodeChar
  split_ifs with h1 h2 h3
  · exact utf8Decode_cons_lt128 c h1 r
  · have e := utf8Decode_cons2 (192 + c / 64) (128 + c % 64) (by omega) (by omega) r
    rw [show (192 + c / 64 - 192) * 64 + (128 + c % 64 - 128) = c from by omega] at e
    exact e
  · have e := utf8Decode_cons3 (224 + c / 4096) (128 + c / 64 % 64) (128 + c % 64)
      (by omega) (by omega) (by omega) r
    rw [show (224 + c / 4096 - 224) * 4096 + (128 + c / 64 % 64 - 128) * 64 +
      (128 + c % 64 - 128) = c from by omega] at e
    exact e
  · have e := utf8Decode_cons4 (240 + c / 262144) (128 + c / 4096 % 64) (128 + c / 64 % 64)
      (128 + c % 64) (by omega) (by omega) (by omega) (by omega) r
    rw [show (240 + c / 262144 - 240) * 262144 + (128 + c / 4096 % 64 - 128) * 4096 +
      (128 + c / 64 % 64 - 128) * 64 + (128 + c % 64 - 128) = c from by omega] at e
    exact e

theorem utf8Decode_flatten (cs : List Nat) (h : ∀ c ∈ cs, c < 1114112) :
    utf8Decode (List.flatten (cs.map utf8EncodeChar)) = cs := by
  induction cs with
  | nil => rfl
  | cons c cs ih =>
    simp only [List.map_cons, List.flatten_cons]
    rw [utf8_round c (h c (List.mem_cons_self c cs)),
      ih (fun x hx => h x (List.mem_cons_of_mem c hx))]

theorem hexVal_hexDigit (n : Nat) (h : n < 16) : hexVal (hexDigit n) = n := by
  unfold hexVal hexDigit
  split_ifs <;> omega

theorem isHex_hexDigit (n : Nat) (h : n < 16) : isHexDigitN (hexDigit n) = true := by
  simp only [isHexDigitN, hexDigit, decide_eq_true_eq]
  split_ifs <;> omega

/-! ## C7 proof infrastructure: the percent scanner undoes quote -/
theorem isSafe_facts (c : Nat) (h : isSafeChar c = true) :
    c ≠ 37 ∧ c ≠ 38 ∧ c ≠ 61 ∧ c ≠ 43 := by
  simp only [isSafeChar, decide_eq_true_eq] at h
  rcases h with h | h | h | h | h | h | h | h <;> omega

theorem pctTokens_cons_ne37 (c : Nat) (hc : c ≠ 37) (t : List Nat) :
    pctTokens (c :: t) = Sum.inl c :: pctTokens t := by
  rcases t with _ | ⟨a, _ | ⟨b, rest⟩⟩
  · rfl
  · rfl
  · simp only [pctTokens]
    rw [if_neg (fun hcon => hc hcon.1)]

theorem pctTokens_pct (b : Nat) (hb : b < 256) (t : List Nat) :
    pctTokens (pctEncodeByte b ++ t) = Sum.inr b :: pctTokens t := by
  show pctTokens (37 :: hexDigit (b / 16) :: hexDigit (b % 16) :: t) = _
  simp only [pctTokens]
  split_ifs with hcond
  · rw [hexVal_hexDigit _ (by omega), hexVal_hexDigit _ (by omega),
      show b / 16 * 16 + b % 16 = b from by omega]
  · exfalso
    apply hcond
    refine ⟨?_, ?_, ?_⟩
    · trivial
    · exact isHex_hexDigit _ (by omega)
    · exact isHex_hexDigit _ (by omega)

theorem pctTokens_bytes (bs : List Nat) (hb : ∀ b ∈ bs, b < 256) (t : List Nat) :
    pctTokens (List.flatten (bs.map pctEncodeByte) ++ t) =
      bs.map Sum.inr ++ pctTokens t := by
  induction bs with
  | nil => rfl
  | cons b bs ih =>
    simp only [List.map_cons, List.flatten_cons, List.append_assoc]
    rw [pctTokens_pct b (hb b (List.mem_cons_self b bs)) _,
      ih (fun x hx => hb x (List.mem_cons_of_mem b hx))]
    rfl

theorem pctTokens_quoteChar (c : Nat) (h : c < 1114112) (t : List Nat) :
    pctTokens (quoteChar c ++ t) = tokChar c ++ pctTokens t := by
  unfold quoteChar tokChar
  by_cases hs : isSafeChar c = true
  · rw [if_pos hs, if_pos hs]
    exact pctTokens_cons_ne37 c (isSafe_facts c hs).1 t
  · rw [if_neg hs, if_neg hs]
    exact pctTokens_bytes (utf8EncodeChar c) (utf8EncodeChar_lt_256 c h) t

theorem pctTokens_quote (s : PyStr) (h : ∀ c ∈ s, c < 1114112) :
    pctTokens (quote s) = List.flatten (s.map tokChar) := by
  induction s with
  | nil => rfl
  | cons c s ih =>
    show pctTokens (quoteChar c ++ List.flatten (s.map quoteChar)) = _
    rw [pctTokens_quoteChar c (h c (List.mem_cons_self c s)),
      show List.flatten (s.map quoteChar) = quote s from rfl,
      ih (fun x hx => h x (List.mem_cons_of_mem c hx))]
    rfl

theorem mem_quoteChar (c x : Nat) (hc : c < 1114112) (hx : x ∈ quoteChar c) :
    isSafeChar x = true ∨ x = 37 ∨ isHexDigitN x = true := by
  unfold quoteChar at hx
  split_ifs at hx with hs
  · simp at hx
    subst hx
    exact Or.inl hs
  · simp only [List.mem_flatten, List.mem_map] at hx
    obtain ⟨l, ⟨b, hb, rfl⟩, hxl⟩ := hx
    have hb256 : b < 256 := utf8EncodeChar_lt_256 c hc b hb
    simp [pctEncodeByte] at hxl
    rcases hxl with rfl | rfl | rfl
    · exact Or.inr (Or.inl rfl)
    · exact Or.inr (Or.inr (isHex_hexDigit _ (by omega)))
    · exact Or.inr (Or.inr (isHex_hexDigit _ (by omega)))

theorem mem_quote (s : PyStr) (x : Nat) (h : ∀ c ∈ s, c < 1114112) (hx : x ∈ quote s) :
    isSafeChar x = true ∨ x = 37 ∨ isHexDigitN x = true := by
  unfold quote at hx
  simp only [List.mem_flatten, List.mem_map] at hx
  obtain ⟨l, ⟨c, hc, rfl⟩, hxl⟩ := hx
  exact mem_quoteChar c x (h c hc) hxl

theorem not_mem_quote (s : PyStr) (x : Nat) (h : ∀ c ∈ s, c < 1114112)
    (h1 : isSafeChar x = false) (h2 : x ≠ 37) (h3 : isHexDigitN x = false) :
    x ∉ quote s := by
  intro hx
  rcases mem_quote s x h hx with hc | hc | hc
  · rw [h1] at hc; exact Bool.false_ne_true hc
  · exact h2 hc
  · rw [h3] at hc; exact Bool.false_ne_true hc

theorem amp_not_mem_quote (s : PyStr) (h : ∀ c ∈ s, c < 1114112) : 38 ∉ quote s :=
  not_mem_quote s 38 h (by decide) (by decide) (by decide)

theorem eq_not_mem_quote (s : PyStr) (h : ∀ c ∈ s, c < 1114112) : 61 ∉ quote s :=
  not_mem_quote s 61 h (by decide) (by decide) (by decide)

theorem plus_not_mem_quote (s : PyStr) (h : ∀ c ∈ s, c < 1114112) : 43 ∉ quote s :=
  not_mem_quote s 43 h (by decide) (by decide) (by decide)

/-! ## C7 proof infrastructure: detokenizing undoes the token image -/
theorem detokAux_inr (bs : List Nat) (run : List Nat) (T : List (Nat ⊕ Nat)) :
    detokAux run (bs.map Sum.inr ++ T) = detokAux (bs.reverse ++ run) T := by
  induction bs generalizing run with
  | nil => rfl
  | cons b bs ih =>
    show detokAux (b :: run) (bs.map Sum.inr ++ T) = _
    rw [ih (b :: run)]
    simp [List.append_assoc]

theorem detokAux_tokens (s : PyStr) (hs : ∀ c ∈ s, c < 1114112) :
    ∀ cs : List Nat, (∀ c ∈ cs, c < 1114112) →
      detokAux (List.flatten (cs.map utf8EncodeChar)).reverse
        (List.flatten (s.map tokChar)) = cs ++ s := by
  induction s with
  | nil =>
    intro cs hcs
    show utf8Decode (List.flatten (cs.map utf8EncodeChar)).reverse.reverse = cs ++ []
    rw [List.reverse_reverse, utf8Decode_flatten cs hcs, List.append_nil]
  | cons c s ih =>
    intro cs hcs
    have hc : c < 1114112 := hs c (List.mem_cons_self c s)
    have hs' : ∀ x ∈ s, x < 1114112 := fun x hx => hs x (List.mem_cons_of_mem c hx)
    simp only [List.map_cons, List.flatten_cons]
    by_cases hsafe : isSafeChar c = true
    · have ht : tokChar c = [Sum.inl c] := by unfold tokChar; rw [if_pos hsafe]
      rw [ht]
      show utf8Decode (List.flatten (cs.map utf8EncodeChar)).reverse.reverse ++
        c :: detokAux [] (List.flatten (s.map tokChar)) = _
      rw [List.reverse_reverse, utf8Decode_flatten cs hcs]
      have h0 := ih hs' [] (by intro x hx; cases hx)
      simp only [List.map_nil, List.flatten_nil, List.reverse_nil, List.nil_append] at h0
      rw [h0]
    · have ht : tokChar c = (utf8EncodeChar c).map Sum.inr := by
        unfold tokChar; rw [if_neg hsafe]
      rw [ht]
      rw [detokAux_inr (utf8EncodeChar c) _ _]
      have hrun : (utf8EncodeChar c).reverse ++ (List.flatten (cs.map utf8EncodeChar)).reverse =
          (List.flatten ((cs ++ [c]).map utf8EncodeChar)).reverse := by
        simp [List.reverse_append]
      rw [hrun, ih hs' (cs ++ [c]) (by
        intro x hx
        rcases List.mem_append.mp hx with hx | hx
        · exact hcs x hx
        · simp at hx; subst hx; exact hc)]
      simp

theorem unquote_plus_quote (s : PyStr) (h : ValidPy s) : unquote_plus (quote s) = s := by
  have h114 : ∀ c ∈ s, c < 1114112 := fun c hc => (h c hc).1
  unfold unquote_plus
  have hmap : (quote s).map (fun c => if c = 43 then 32 else c) = quote s := by
    have h43 := plus_not_mem_quote s h114
    calc (quote s).map (fun c => if c = 43 then 32 else c)
        = (quote s).map id := List.map_congr_left (fun a ha => by
            have hne : a ≠ 43 := fun he => h43 (he ▸ ha)
            simp [hne])
      _ = quote s := List.map_id _
  rw [hmap]
  unfold unquote
  rw [pctTokens_quote s h114]
  have hd := detokAux_tokens s h114 [] (by intro x hx; cases hx)
  simpa using hd

/-! ## C7 proof infrastructure: splitting the assembled query string -/
theorem bool_ne_true {b : Bool} (h : b = false) : ¬ b = true := by simp [h]

theorem splitOnL_sepfree {α : Type} [DecidableEq α] (sep : α) (l : List α)
    (h : sep ∉ l) : splitOnL sep l = [l] := by
  induction l with
  | nil => rfl
  | cons c l ih =>
    have hc : ¬ c = sep := fun he => h (he ▸ List.mem_cons_self c l)
    simp only [splitOnL]
    rw [if_neg hc, ih (fun hm => h (List.mem_cons_of_mem c hm))]

theorem splitOnL_cons_append {α : Type} [DecidableEq α] (sep : α) (a b : List α)
    (h : sep ∉ a) : splitOnL sep (a ++ sep :: b) = a :: splitOnL sep b := by
  induction a with
  | nil =>
    show splitOnL sep (sep :: b) = [] :: splitOnL sep b
    simp [splitOnL]
  | cons c a ih =>
    have hc : ¬ c = sep := fun he => h (he ▸ List.mem_cons_self c a)
    show splitOnL sep (c :: (a ++ sep :: b)) = (c :: a) :: splitOnL sep b
    simp only [splitOnL]
    rw [if_neg hc, ih (fun hm => h (List.mem_cons_of_mem c hm))]

theorem splitOnL_joinAmp (ch : List PyStr) (hne : ch ≠ [])
    (hfree : ∀ c ∈ ch, 38 ∉ c) : splitOnL 38 (joinAmp ch) = ch := by
  induction ch with
  | nil => exact absurd rfl hne
  | cons c ch ih =>
    cases ch with
    | nil => exact splitOnL_sepfree 38 c (hfree c (List.mem_cons_self c []))
    | cons y zs =>
      show splitOnL 38 (c ++ 38 :: joinAmp (y :: zs)) = _
      rw [splitOnL_cons_append 38 c _ (hfree c (List.mem_cons_self c _)),
        ih (by simp) (fun x hx => hfree x (List.mem_cons_of_mem c hx))]

theorem splitFirstL_mk {α : Type} [DecidableEq α] (a : List α) (c : α) (b : List α)
    (h : c ∉ a) : splitFirstL (a ++ c :: b) c = some (a, b) := by
  induction a with
  | nil =>
    show splitFirstL (c :: b) c = _
    simp [splitFirstL]
  | cons x a ih =>
    have hx : ¬ x = c := fun he => h (he ▸ List.mem_cons_self x a)
    show splitFirstL (x :: (a ++ c :: b)) c = _
    simp only [splitFirstL]
    rw [if_neg hx, ih (fun hm => h (List.mem_cons_of_mem x hm))]

theorem flatten_amp (ch : List PyStr) (h : ch ≠ []) :
    List.flatten (ch.map fun c => c ++ [38]) = joinAmp ch ++ [38] := by
  induction ch with
  | nil => exact absurd rfl h
  | cons c ch ih =>
    cases ch with
    | nil => simp [joinAmp]
    | cons y zs =>
      simp only [List.map_cons, List.flatten_cons] at ih ⊢
      rw [ih (by simp)]
      show (c ++ [38]) ++ (joinAmp (y :: zs) ++ [38]) = (c ++ 38 :: joinAmp (y :: zs)) ++ [38]
      simp

theorem filterMap_some_of_mem {α : Type} (l : List α) (g : α → Option α)
    (h : ∀ x ∈ l, g x = some x) : l.filterMap g = l := by
  induction l with
  | nil => rfl
  | cons x l ih =>
    rw [List.filterMap_cons, h x (List.mem_cons_self x l),
      ih (fun y hy => h y (List.mem_cons_of_mem x hy))]

/-! ## C7 proof infrastructure: build_query on a flat string mapping -/
theorem bqLoop_flat (m : List (PyStr × PyStr)) :
    bqLoop (m.map fun p => (p.1, JVal.str p.2)) [] =
      List.flatten (m.map fun p => (quote p.1 ++ 61 :: quote p.2) ++ [38]) := by
  induction m with
  | nil => simp [bqLoop]
  | cons p m ih =>
    simp only [List.map_cons, List.flatten_cons, bqLoop, jvalStr]
    rw [ih]
    have he : pyStr "=" = [61] := by decide
    have ha : pyStr "&" = [38] := by decide
    simp [he, ha]

theorem bqLoop_flat_amp (m : List (PyStr × PyStr)) (h : m ≠ []) :
    bqLoop (m.map fun p => (p.1, JVal.str p.2)) [] =
      joinAmp (m.map fun p => quote p.1 ++ 61 :: quote p.2) ++ [38] := by
  rw [bqLoop_flat m]
  rw [show (m.map fun p => (quote p.1 ++ 61 :: quote p.2) ++ [38]) =
    ((m.map fun p => quote p.1 ++ 61 :: quote p.2).map fun c => c ++ [38]) from by
      rw [List.map_map]; rfl]
  exact flatten_amp _ (by simpa using h)

theorem build_query_flat (m : List (PyStr × PyStr)) :
    build_query (m.map fun p => (p.1, JVal.str p.2)) [] =
      joinAmp (m.map fun p => quote p.1 ++ 61 :: quote p.2) := by
  cases m with
  | nil => simp [build_query, joinAmp]
  | cons p m' =>
    simp only [build_query]
    rw [if_neg (by simp)]
    rw [bqLoop_flat_amp (p :: m') (by simp)]
    rw [if_pos ⟨by simp, trivial, by rw [List.getLast?_concat]⟩]
    rw [List.dropLast_concat]

theorem parse_qsl_chunks (m : List (PyStr × PyStr))
    (hv : ∀ p ∈ m, ValidPy p.1 ∧ ValidPy p.2) (hne : m ≠ []) :
    parse_qsl (joinAmp (m.map fun p => quote p.1 ++ 61 :: quote p.2)) true = m := by
  have hvalid1 : ∀ p ∈ m, ∀ c ∈ p.1, c < 1114112 :=
    fun p hp c hc => ((hv p hp).1 c hc).1
  have hvalid2 : ∀ p ∈ m, ∀ c ∈ p.2, c < 1114112 :=
    fun p hp c hc => ((hv p hp).2 c hc).1
  unfold parse_qsl
  rw [splitOnL_joinAmp _ (by simpa using hne) ?hfree]
  case hfree =>
    intro ch hch
    simp only [List.mem_map] at hch
    obtain ⟨p, hp, rfl⟩ := hch
    intro h38
    rcases List.mem_append.mp h38 with hm | hm
    · exact amp_not_mem_quote p.1 (hvalid1 p hp) hm
    · rcases List.mem_cons.mp hm with he | hm
      · exact absurd he (by decide)
      · exact amp_not_mem_quote p.2 (hvalid2 p hp) hm
  rw [List.filterMap_map]
  apply filterMap_some_of_mem
  intro p hp
  show (if ((quote p.1 ++ 61 :: quote p.2).isEmpty) = true then none else _) = some p
  rw [if_neg (by cases h : quote p.1 <;> simp [h])]
  rw [splitFirstL_mk (quote p.1) 61 (quote p.2) (eq_not_mem_quote p.1 (hvalid1 p hp))]
  show (if _ ∨ _ then _ else _) = some p
  rw [if_pos (Or.inr rfl)]
  rw [unquote_plus_quote p.1 (hv p hp).1, unquote_plus_quote p.2 (hv p hp).2]

/-! ## C7 proof infrastructure: parse_qs grouping with distinct keys -/
theorem qsAppend_not_mem (acc : List (PyStr × List PyStr)) (k : PyStr) (v : PyStr)
    (h : k ∉ acc.map Prod.fst) : qsAppend acc k v = acc ++ [(k, [v])] := by
  induction acc with
  | nil => rfl
  | cons kv acc ih =>
    obtain ⟨k0, vs⟩ := kv
    have hk : ¬ k0 = k := fun he => h (by simp [he])
    simp only [qsAppend]
    rw [if_neg hk, ih (fun hm => h (List.mem_cons_of_mem _ hm))]
    rfl

theorem qsGroup_go (pairs : List (PyStr × PyStr)) :
    (pairs.map Prod.fst).Nodup →
    ∀ acc : List (PyStr × List PyStr),
      (∀ k ∈ pairs.map Prod.fst, k ∉ acc.map Prod.fst) →
      pairs.foldl (fun acc kv => qsAppend acc kv.1 kv.2) acc =
        acc ++ pairs.map fun p => (p.1, [p.2]) := by
  induction pairs with
  | nil => intro _ acc _; simp
  | cons p pairs ih =>
    intro hnd acc hdisj
    have hnd2 : (p.1 :: (pairs.map Prod.fst)).Nodup := by simpa using hnd
    have hnd' := List.nodup_cons.mp hnd2
    simp only [List.foldl_cons, List.map_cons]
    rw [qsAppend_not_mem acc p.1 p.2 (hdisj p.1 (by simp))]
    rw [ih hnd'.2 (acc ++ [(p.1, [p.2])]) ?disj2]
    · simp
    case disj2 =>
      intro k hk
      simp only [List.map_append, List.map_cons, List.map_nil]
      intro hmem
      rcases List.mem_append.mp hmem with hm | hm
      · exact hdisj k (List.mem_cons_of_mem _ hk) hm
      · simp at hm
        subst hm
        exact hnd'.1 hk

theorem qsGroup_nodup (pairs : List (PyStr × PyStr))
    (hnd : (pairs.map Prod.fst).Nodup) :
    qsGroup pairs = pairs.map fun p => (p.1, [p.2]) := by
  have := qsGroup_go pairs hnd [] (by simp)
  simpa [qsGroup] using this

/-- C7: for every flat mapping of distinct string keys to string values (all
valid Unicode scalar strings, since quote rejects lone surrogates), encoding
with build_query and parsing back with build_query_obj returns the original
mapping with every value a scalar; concretely foo maps to bar encodes to
foo=bar, and a repeated key parses back as a list while single-valued keys
come back as scalars. -/
theorem c7_build_query_round_trip (m : List (PyStr × PyStr))
    (hnd : (m.map Prod.fst).Nodup)
    (hv : ∀ p ∈ m, ValidPy p.1 ∧ ValidPy p.2) :
    build_query_obj (build_query (m.map fun p => (p.1, JVal.str p.2)) []) true =
      m.map (fun p => (p.1, QV.scalar p.2)) ∧
    build_query [(pyStr "foo", JVal.str (pyStr "bar"))] [] = pyStr "foo=bar" ∧
    build_query_obj (pyStr "a=1&a=2") true =
      [(pyStr "a", QV.list [pyStr "1", pyStr "2"])] := by
  refine ⟨?_, ?_, by decide⟩
  · cases m with
    | nil =>
      show build_query_obj (build_query [] []) true = []
      rw [show build_query ([] : List (PyStr × JVal)) [] = [] from by simp [build_query]]
      rfl
    | cons p m' =>
      rw [build_query_flat (p :: m')]
      unfold build_query_obj
      rw [parse_qsl_chunks (p :: m') hv (by simp)]
      rw [qsGroup_nodup (p :: m') hnd]
      rw [List.map_map]
      rfl
  · simp only [build_query, bqLoop, jvalStr]
    decide

/-- C7 witness: the round trip applied at the concrete mapping foo to bar. -/
theorem c7_build_query_round_trip_witness :
    build_query_obj
      (build_query ([(pyStr "foo", pyStr "bar")].map fun p => (p.1, JVal.str p.2)) [])
      true = [(pyStr "foo", QV.scalar (pyStr "bar"))] :=
  (c7_build_query_round_trip [(pyStr "foo", pyStr "bar")] (by decide) (by decide)).1

end Resht
